import Mathlib

/-!
Verification of the ghostty-web rendering subsystem: a shallow embedding of the
theme resolver (`src/lib/theme.ts`), the frame scheduler
(`src/lib/render-scheduler.ts`) and the canvas renderer (`CanvasRenderer`),
together with theorems settling the specification claims about them.

Numeric conventions: JavaScript numbers that stay integral are embedded as
`Nat`/`Int`; fractional quantities (alpha channels, pixel geometry) as `Rat`.
A possibly-NaN intermediate result is an `Option` (with `none` playing NaN),
and user-supplied numbers that may be non-finite use the `JSNum` type.
-/

namespace GhosttyWeb

/-! ## JavaScript string/number primitives used by `theme.ts` -/

/-- JavaScript whitespace test (the characters relevant to this code base:
space, tab, line feed, carriage return). -/
def isJsWs (c : Char) : Bool :=
  c.toNat = 32 || c.toNat = 9 || c.toNat = 10 || c.toNat = 13

/-- JavaScript `String.prototype.trim`: strip whitespace from both ends. -/
def trimList (l : List Char) : List Char :=
  ((l.dropWhile isJsWs).reverse.dropWhile isJsWs).reverse

/-- Value of a hexadecimal digit, if the character is one (either case). -/
def hexVal? (c : Char) : Option Nat :=
  let n := c.toNat
  if 48 ≤ n ∧ n ≤ 57 then some (n - 48)
  else if 97 ≤ n ∧ n ≤ 102 then some (n - 87)
  else if 65 ≤ n ∧ n ≤ 70 then some (n - 55)
  else none

/-- Decimal digit test. -/
def isDigitCh (c : Char) : Bool :=
  48 ≤ c.toNat && c.toNat ≤ 57

/-- JavaScript `Number.parseInt(s, 16)`: skip leading whitespace, optional sign, optional
`0x`/`0X`, then the longest run of hex digits; `none` is NaN (no digits). -/
def parseIntJS16 (l : List Char) : Option Int :=
  let l1 := l.dropWhile isJsWs
  let sl : Int × List Char :=
    match l1 with
    | '-' :: rest => (-1, rest)
    | '+' :: rest => (1, rest)
    | _ => (1, l1)
  let l2 :=
    match sl.2 with
    | '0' :: 'x' :: rest => rest
    | '0' :: 'X' :: rest => rest
    | r => r
  let ds := l2.takeWhile (fun c => (hexVal? c).isSome)
  if ds.isEmpty then none
  else some (sl.1 * ds.foldl (fun a c => a * 16 + ((hexVal? c).getD 0 : Int)) 0)

/-- Value of a nonempty run of decimal digits (`Number.parseInt(s, 10)` on a
string the `rgb()` pattern has already constrained to 1–3 digits). -/
def digitsVal (ds : List Char) : Nat :=
  ds.foldl (fun a c => a * 10 + (c.toNat - 48)) 0

/-- JavaScript `Number.parseFloat` restricted to strings of digits and dots (all the
`rgb()`/`rgba()` alpha capture group can produce): longest valid prefix,
`none` is NaN. -/
def parseFloatJS (l : List Char) : Option Rat :=
  let ip := l.takeWhile isDigitCh
  let rest := l.drop ip.length
  match rest with
  | '.' :: r2 =>
    let fp := r2.takeWhile isDigitCh
    if ip.isEmpty ∧ fp.isEmpty then none
    else some ((digitsVal ip : Rat) + (digitsVal fp : Rat) / ((10 : Rat) ^ fp.length))
  | _ => if ip.isEmpty then none else some (digitsVal ip : Rat)

/-- A user-supplied JavaScript number: NaN, an infinity, or a finite value. -/
inductive JSNum where
  | nan : JSNum
  | posInf : JSNum
  | negInf : JSNum
  | num : Rat → JSNum
deriving DecidableEq

/-- Function `clampByte` from `theme.ts`: non-finite (here: NaN, `none`) maps to 0,
otherwise clamp to [0, 255]. -/
def clampByte (x : Option Int) : Nat :=
  match x with
  | none => 0
  | some v => if v < 0 then 0 else if 255 < v then 255 else v.toNat

/-- Function `clampAlpha` from `theme.ts`: non-finite (here: NaN, `none`) maps to 1,
otherwise clamp to [0, 1]. -/
def clampAlpha (x : Option Rat) : Rat :=
  match x with
  | none => 1
  | some v => if v < 0 then 0 else if 1 < v then 1 else v

/-! ## Theme data model (`renderer-types.ts`, `theme.ts`) -/

/-- An RGBA color as produced by `parseColor`: byte components, rational alpha. -/
structure RGBA where
  r : Nat
  g : Nat
  b : Nat
  a : Rat
deriving DecidableEq

/-- The fully resolved theme (`TerminalTheme` in `renderer-types.ts`). -/
structure TerminalTheme where
  foreground : RGBA
  background : RGBA
  cursor : RGBA
  cursorAccent : RGBA
  selectionBackground : RGBA
  selectionForeground : Option RGBA
  selectionOpacity : Rat
deriving DecidableEq

/-- Modelled from the spec: the `ITheme` override type is declared in
`interfaces.ts`, which is not among the provided sources. The spec describes
it as a partial mapping of color-slot name to textual color string plus a
numeric selection opacity; only the slots read by `resolveTheme` are
modelled. `none` stands for an absent (or `undefined`) entry. -/
structure ITheme where
  foreground : Option String := none
  background : Option String := none
  cursor : Option String := none
  cursorAccent : Option String := none
  selectionBackground : Option String := none
  selectionForeground : Option String := none
  selectionOpacity : Option JSNum := none

/-- Function `parseHexColor` from `theme.ts`, on the character list of the input. -/
def parseHexColorL (value : List Char) : Option RGBA :=
  let hex := trimList (value.drop 1)
  let comps : Option (List Char × List Char × List Char × List Char) :=
    match hex with
    | [c1, c2, c3] => some ([c1, c1], [c2, c2], [c3, c3], ['f', 'f'])
    | [c1, c2, c3, c4] => some ([c1, c1], [c2, c2], [c3, c3], [c4, c4])
    | [c1, c2, c3, c4, c5, c6] => some ([c1, c2], [c3, c4], [c5, c6], ['f', 'f'])
    | [c1, c2, c3, c4, c5, c6, c7, c8] => some ([c1, c2], [c3, c4], [c5, c6], [c7, c8])
    | _ => none
  match comps with
  | none => none
  | some (rs, gs, bs, aas) =>
    match parseIntJS16 rs, parseIntJS16 gs, parseIntJS16 bs, parseIntJS16 aas with
    | some ri, some gi, some bi, some ai =>
      some ⟨clampByte (some ri), clampByte (some gi), clampByte (some bi),
        clampAlpha (some ((ai : Rat) / 255))⟩
    | _, _, _, _ => none

/-- Consume one expected character. -/
def expectChar (c : Char) : List Char → Option (List Char)
  | x :: rest => if x = c then some rest else none
  | [] => none

/-- Match `\d{1,3}` (greedily, as the anchored regex does) and return its
numeric value and the rest of the input. -/
def span13Digits (l : List Char) : Option (Nat × List Char) :=
  let ds := l.takeWhile isDigitCh
  if 1 ≤ ds.length ∧ ds.length ≤ 3 then some (digitsVal ds, l.drop ds.length) else none

/-- The anchored regex of `parseColor`:
`rgba?\(\s*(\d{1,3})\s*,\s*(\d{1,3})\s*,\s*(\d{1,3})\s*(?:,\s*([0-9.]+)\s*)?\)`
matched against the whole input; returns the three byte groups and the raw
alpha capture when present. -/
def parseRgbFunc (l : List Char) : Option (Nat × Nat × Nat × Option (List Char)) := do
  let l ← match l with
    | 'r' :: 'g' :: 'b' :: rest => some rest
    | _ => none
  let l := match l with
    | 'a' :: rest => rest
    | r => r
  let l ← expectChar '(' l
  let l := l.dropWhile isJsWs
  let (d1, l) ← span13Digits l
  let l := l.dropWhile isJsWs
  let l ← expectChar ',' l
  let l := l.dropWhile isJsWs
  let (d2, l) ← span13Digits l
  let l := l.dropWhile isJsWs
  let l ← expectChar ',' l
  let l := l.dropWhile isJsWs
  let (d3, l) ← span13Digits l
  let l := l.dropWhile isJsWs
  match l with
  | ',' :: l2 =>
    let l2 := l2.dropWhile isJsWs
    let ds := l2.takeWhile (fun c => isDigitCh c || c = '.')
    if ds.isEmpty then none
    else
      let l3 := (l2.drop ds.length).dropWhile isJsWs
      match expectChar ')' l3 with
      | some [] => some (d1, d2, d3, some ds)
      | _ => none
  | ')' :: l2 => if l2.isEmpty then some (d1, d2, d3, none) else none
  | _ => none

/-- Function `parseColor` from `theme.ts`, on the character list of the input. -/
def parseColorL (value : List Char) : Option RGBA :=
  if value.isEmpty then none
  else if value.head? = some '#' then parseHexColorL value
  else
    match parseRgbFunc value with
    | some (d1, d2, d3, aGroup) =>
      let a : Rat :=
        match aGroup with
        | some ds => clampAlpha (parseFloatJS ds)
        | none => 1
      some ⟨clampByte (some (d1 : Int)), clampByte (some (d2 : Int)),
        clampByte (some (d3 : Int)), a⟩
    | none => none

/-- Function `parseColor` from `theme.ts` (`none` both for `undefined` via the caller
and for an unparseable string). -/
def parseColor (s : String) : Option RGBA :=
  parseColorL s.data

/-- Default color strings of `DEFAULT_THEME` (the slots `resolveTheme` reads). -/
def DEFAULT_foreground : String := "#d4d4d4"

def DEFAULT_background : String := "#1e1e1e"

def DEFAULT_cursor : String := "#ffffff"

def DEFAULT_cursorAccent : String := "#1e1e1e"

def DEFAULT_selectionBackground : String := "#d4d4d4"

def DEFAULT_selectionForeground : String := "#1e1e1e"

/-- Constant `DEFAULT_THEME` from `theme.ts` (selection opacity 0.4). -/
def DEFAULT_THEME : ITheme :=
  { foreground := some DEFAULT_foreground
    background := some DEFAULT_background
    cursor := some DEFAULT_cursor
    cursorAccent := some DEFAULT_cursorAccent
    selectionBackground := some DEFAULT_selectionBackground
    selectionForeground := some DEFAULT_selectionForeground
    selectionOpacity := some (JSNum.num (2 / 5)) }

/-- Spread merge of the override into the defaults. -/
def mergeTheme (theme : Option ITheme) : ITheme :=
  match theme with
  | none => DEFAULT_THEME
  | some t =>
    { foreground := t.foreground <|> DEFAULT_THEME.foreground
      background := t.background <|> DEFAULT_THEME.background
      cursor := t.cursor <|> DEFAULT_THEME.cursor
      cursorAccent := t.cursorAccent <|> DEFAULT_THEME.cursorAccent
      selectionBackground := t.selectionBackground <|> DEFAULT_THEME.selectionBackground
      selectionForeground := t.selectionForeground <|> DEFAULT_THEME.selectionForeground
      selectionOpacity := t.selectionOpacity <|> DEFAULT_THEME.selectionOpacity }

/-- Function `resolveColor`: the first success among the parse of the value,
the parse of the fallback, and opaque black. -/
def resolveColor (value : Option String) (fallback : String) : RGBA :=
  ((value.bind parseColor) <|> parseColor fallback).getD ⟨0, 0, 0, 1⟩

/-- Function `resolveOptionalColor`: falsy (`undefined`, empty) or the literal string
`"undefined"` give `null`; otherwise the (possibly failing) parse. -/
def resolveOptionalColor (value : Option String) : Option RGBA :=
  match value with
  | none => none
  | some s => if s = "" ∨ s = "undefined" then none else parseColor s

/-- Function `normalizeOpacity`: absent or non-finite gives the 0.4 default, finite
values are clamped. -/
def normalizeOpacity (v : Option JSNum) : Rat :=
  match v with
  | none => 2 / 5
  | some (JSNum.num q) => clampAlpha (some q)
  | some _ => 2 / 5

/-- Function `resolveTheme` from `theme.ts`. -/
def resolveTheme (theme : Option ITheme) : TerminalTheme :=
  let merged := mergeTheme theme
  { foreground := resolveColor merged.foreground DEFAULT_foreground
    background := resolveColor merged.background DEFAULT_background
    cursor := resolveColor merged.cursor DEFAULT_cursor
    cursorAccent := resolveColor merged.cursorAccent DEFAULT_cursorAccent
    selectionBackground := resolveColor merged.selectionBackground DEFAULT_selectionBackground
    selectionForeground :=
      resolveOptionalColor ((theme.bind ITheme.selectionForeground) <|> merged.selectionForeground)
    selectionOpacity := normalizeOpacity (theme.bind ITheme.selectionOpacity) }

/-! ## Frame scheduler (`src/lib/render-scheduler.ts`)

The `RenderScheduler` keeps a `Map` from handle to pending entry (insertion
ordered, ids strictly increasing, so list order is registration order), a
`nextId` counter starting at 1, and an optional armed animation-frame request
(embedded as the Boolean `rafArmed`). A callback's observable effect during a
flush is the list of new callbacks it schedules, embedded as `eff`. -/

/-- An external interaction with the scheduler between two frame boundaries. -/
inductive SchedEvent (β : Type) where
  | schedule (cb : β)
  | cancel (id : Nat)

/-- Scheduler state: pending entries in registration order, the next handle,
and whether an animation-frame request is armed. -/
structure SchedulerState (β : Type) where
  pending : List (Nat × β)
  nextId : Nat
  rafArmed : Bool
deriving DecidableEq

/-- The freshly constructed scheduler. -/
def initScheduler (β : Type) : SchedulerState β :=
  ⟨[], 1, false⟩

/-- Method `schedule(callback)`: assign the next id, append the entry, `ensureRaf()`. -/
def schedule {β : Type} (s : SchedulerState β) (cb : β) : SchedulerState β × Nat :=
  ({ pending := s.pending ++ [(s.nextId, cb)], nextId := s.nextId + 1, rafArmed := true },
    s.nextId)

/-- Method `cancel(id)`: delete the entry with that handle, if present. -/
def cancel {β : Type} (s : SchedulerState β) (id : Nat) : SchedulerState β :=
  { s with pending := s.pending.filter (fun e => e.1 ≠ id) }

/-- Run a sequence of `schedule` calls (a callback's reentrant scheduling). -/
def scheduleAll {β : Type} (s : SchedulerState β) (cbs : List β) : SchedulerState β :=
  cbs.foldl (fun acc cb => (schedule acc cb).1) s

/-- The `for (const entry of entries)` loop of `flush`: invoke each swapped-out
entry in order (recording it in the returned trace) and apply its scheduling
effects to the live state. -/
def runCallbacks {β : Type} (eff : β → List β) :
    List (Nat × β) → SchedulerState β → SchedulerState β × List (Nat × β)
  | [], s => (s, [])
  | e :: rest, s =>
    let s1 := scheduleAll s (eff e.2)
    let r := runCallbacks eff rest s1
    (r.1, e :: r.2)

/-- Method `flush(now)`: disarm the request, early-return on an empty pending set,
otherwise swap the pending set out, invoke every swapped-out entry in order,
and re-arm when the swapped-in set is non-empty afterwards. Returns the new
state and the invocation trace. -/
def flush {β : Type} (eff : β → List β) (s : SchedulerState β) :
    SchedulerState β × List (Nat × β) :=
  let s0 : SchedulerState β := { s with rafArmed := false }
  if s0.pending.isEmpty then (s0, [])
  else
    let entries := s0.pending
    let s1 : SchedulerState β := { s0 with pending := [] }
    let r := runCallbacks eff entries s1
    (if r.1.pending.isEmpty then r.1 else { r.1 with rafArmed := true }, r.2)

/-- Apply one external interaction. -/
def runEvent {β : Type} (s : SchedulerState β) : SchedEvent β → SchedulerState β
  | .schedule cb => (schedule s cb).1
  | .cancel id => cancel s id

/-- Apply a sequence of external interactions. -/
def runEvents {β : Type} (evs : List (SchedEvent β)) (s : SchedulerState β) : SchedulerState β :=
  evs.foldl runEvent s

/-- Does the event list cancel handle `id` somewhere? -/
def hasCancel {β : Type} (evs : List (SchedEvent β)) (id : Nat) : Bool :=
  evs.any fun e =>
    match e with
    | .cancel m => m == id
    | .schedule _ => false

/-- Does the event list contain at least one `schedule`? -/
def hasSchedule {β : Type} (evs : List (SchedEvent β)) : Bool :=
  evs.any fun e =>
    match e with
    | .schedule _ => true
    | .cancel _ => false

/-- Specification-side description of the surviving entries: each scheduled
callback gets the next id and survives unless a later event cancels that id. -/
def survivors {β : Type} : List (SchedEvent β) → Nat → List (Nat × β)
  | [], _ => []
  | .schedule cb :: rest, n =>
    (if hasCancel rest n then [] else [(n, cb)]) ++ survivors rest (n + 1)
  | .cancel _ :: rest, n => survivors rest n

/-! ## Renderer data model (`renderer-types.ts`, missing `types.ts`) -/

/-- Modelled from the spec: `CellFlags` is a bitmask declared in `types.ts`,
which is not among the provided sources; the spec lists the style flags
(bold, italic, underline, strikethrough, inverse, invisible, faint), so the
mask is embedded as one Boolean per flag. -/
structure CellFlags where
  bold : Bool := false
  italic : Bool := false
  underline : Bool := false
  strikethrough : Bool := false
  inverse : Bool := false
  invisible : Bool := false
  faint : Bool := false
deriving DecidableEq

/-- Modelled from the spec: `GhosttyCell` is declared in the missing
`types.ts`; the spec's data model and the fields `CanvasRenderer` reads give
its shape: code point, display width (0 = spacer), color components, style
flags, grapheme-cluster length and hyperlink id. -/
structure GhosttyCell where
  codepoint : Nat := 0
  width : Nat := 1
  fg_r : Nat := 0
  fg_g : Nat := 0
  fg_b : Nat := 0
  bg_r : Nat := 0
  bg_g : Nat := 0
  bg_b : Nat := 0
  flags : CellFlags := {}
  grapheme_len : Nat := 0
  hyperlink_id : Nat := 0
deriving DecidableEq

/-- Modelled from the spec: `DirtyState` is declared in the missing
`types.ts`; `render` only compares against `DirtyState.FULL` (the
frame-level full-repaint indicator), so a two-state enum suffices. -/
inductive DirtyState where
  | NONE
  | FULL
deriving DecidableEq, BEq

/-- Row-flag bit `ROW_DIRTY` (`renderer-types.ts`). -/
def ROW_DIRTY : Nat := 1

/-- Row-flag bit `ROW_HAS_SELECTION` (`renderer-types.ts`). -/
def ROW_HAS_SELECTION : Nat := 2

/-- Row-flag bit `ROW_HAS_HYPERLINK` (`renderer-types.ts`). -/
def ROW_HAS_HYPERLINK : Nat := 4

/-- Type `SelectionRange` (`renderer-types.ts`). -/
structure SelectionRange where
  startCol : Int
  startRow : Int
  endCol : Int
  endRow : Int
deriving DecidableEq

/-- Type `LinkRange` (`renderer-types.ts`). -/
structure LinkRange where
  startX : Nat
  startY : Nat
  endX : Nat
  endY : Nat
deriving DecidableEq

/-- Type `HyperlinkRange` (`renderer-types.ts`). -/
structure HyperlinkRange where
  hyperlinkId : Nat
  range : Option LinkRange
deriving DecidableEq

/-- Type `CursorStyle` (`renderer-types.ts`). -/
inductive CursorStyle where
  | block
  | underline
  | bar
deriving DecidableEq

/-- Type `CellMetrics` (`renderer-types.ts`): integer pixel measurements. -/
structure CellMetrics where
  width : Nat
  height : Nat
  baseline : Nat
deriving DecidableEq

/-- The per-frame `RenderInput` record (`renderer-types.ts`). -/
structure RenderInput where
  cols : Nat
  rows : Nat
  viewportCells : List GhosttyCell
  rowFlags : List Nat
  dirtyState : DirtyState
  selectionRange : Option SelectionRange
  hoveredLink : Option HyperlinkRange
  cursorX : Nat
  cursorY : Nat
  cursorVisible : Bool
  cursorStyle : CursorStyle
  getGraphemeString : Nat → Nat → String
  theme : TerminalTheme
  viewportY : Nat
  scrollbackLength : Nat
  scrollbarOpacity : Rat

/-! ## Canvas renderer drawing model

Drawing is embedded as a list of paint operations: each 2D-context call that
puts pixels on the surface becomes one constructor application, carrying the
geometry, the fill/stroke style and the effective global alpha. -/

/-- A CSS color as handed to the 2D context. -/
inductive CssColor where
  | rgbByte (r g b : Nat)
  | rgbaCol (c : RGBA)
  | named (s : String)
deriving DecidableEq

/-- An axis-aligned rectangle in CSS pixels. -/
structure Rect where
  x : Rat
  y : Rat
  w : Rat
  h : Rat
deriving DecidableEq

/-- One observable drawing operation of the canvas backend. -/
inductive PaintOp where
  | fillRect (r : Rect) (c : CssColor) (alpha : Rat)
  | strokeLine (x1 y1 x2 y2 : Rat) (c : CssColor)
  | drawText (x y : Rat) (text : String) (c : CssColor) (alpha : Rat) (italic bold : Bool)
deriving DecidableEq

/-- Method `isInSelection` from `CanvasRenderer`. -/
def isInSelection (sel : Option SelectionRange) (x y : Int) : Bool :=
  match sel with
  | none => false
  | some s =>
    if s.startRow = s.endRow then
      decide (y = s.startRow ∧ s.startCol ≤ x ∧ x ≤ s.endCol)
    else if y = s.startRow then
      decide (s.startCol ≤ x)
    else if y = s.endRow then
      decide (x ≤ s.endCol)
    else if s.startRow < y ∧ y < s.endRow then
      true
    else
      false

/-- The cell rectangle used by both background and overlay fills. -/
def cellRect (m : CellMetrics) (x y w : Nat) : Rect :=
  ⟨((x * m.width : Nat) : Rat), ((y * m.height : Nat) : Rat),
    ((m.width * w : Nat) : Rat), ((m.height : Nat) : Rat)⟩

/-- Method `renderCellBackground` (pass 1): INVERSE swaps foreground into the
background fill; the exact (0,0,0) sentinel suppresses the per-cell fill;
a selected cell additionally gets the translucent selection overlay. -/
def renderCellBackground (m : CellMetrics) (theme : TerminalTheme)
    (sel : Option SelectionRange) (cell : GhosttyCell) (x y : Nat) : List PaintOp :=
  let rect := cellRect m x y cell.width
  let comps : Nat × Nat × Nat :=
    if cell.flags.inverse then (cell.fg_r, cell.fg_g, cell.fg_b)
    else (cell.bg_r, cell.bg_g, cell.bg_b)
  let bgOps :=
    if comps = (0, 0, 0) then []
    else [PaintOp.fillRect rect (CssColor.rgbByte comps.1 comps.2.1 comps.2.2) 1]
  let selOps :=
    if isInSelection sel (x : Int) (y : Int) then
      [PaintOp.fillRect rect (CssColor.rgbaCol theme.selectionBackground) theme.selectionOpacity]
    else []
  bgOps ++ selOps

/-- Method `renderCellText` (pass 2): glyph plus decorations. -/
def renderCellText (m : CellMetrics) (theme : TerminalTheme) (sel : Option SelectionRange)
    (hov : Option HyperlinkRange) (getG : Nat → Nat → String) (cell : GhosttyCell)
    (x y : Nat) : List PaintOp :=
  if cell.flags.invisible then []
  else
    let cellX : Rat := ((x * m.width : Nat) : Rat)
    let cellY : Rat := ((y * m.height : Nat) : Rat)
    let cellW : Rat := ((m.width * cell.width : Nat) : Rat)
    let isSelected := isInSelection sel (x : Int) (y : Int)
    let fg : Nat × Nat × Nat :=
      if cell.flags.inverse then (cell.bg_r, cell.bg_g, cell.bg_b)
      else (cell.fg_r, cell.fg_g, cell.fg_b)
    let color : CssColor :=
      match theme.selectionForeground with
      | some sf => if isSelected then CssColor.rgbaCol sf else CssColor.rgbByte fg.1 fg.2.1 fg.2.2
      | none => CssColor.rgbByte fg.1 fg.2.1 fg.2.2
    let alpha : Rat := if cell.flags.faint then 1 / 2 else 1
    let ch : String :=
      if 0 < cell.grapheme_len then getG y x
      else String.singleton (Char.ofNat (if cell.codepoint = 0 then 32 else cell.codepoint))
    let textOp :=
      PaintOp.drawText cellX (cellY + (m.baseline : Rat)) ch color alpha
        cell.flags.italic cell.flags.bold
    let underlineY := cellY + (m.baseline : Rat) + 2
    let uOps :=
      if cell.flags.underline then
        [PaintOp.strokeLine cellX underlineY (cellX + cellW) underlineY color]
      else []
    let strikeY := cellY + (m.height : Rat) / 2
    let sOps :=
      if cell.flags.strikethrough then
        [PaintOp.strokeLine cellX strikeY (cellX + cellW) strikeY color]
      else []
    let hoveredId :=
      match hov with
      | some h => h.hyperlinkId
      | none => 0
    let linkOps :=
      if 0 < cell.hyperlink_id ∧ cell.hyperlink_id = hoveredId then
        [PaintOp.strokeLine cellX underlineY (cellX + cellW) underlineY (CssColor.named "#4A90E2")]
      else []
    let rangeOps :=
      match hov with
      | some h =>
        match h.range with
        | some rg =>
          if (y = rg.startY ∧ rg.startX ≤ x ∧ (y < rg.endY ∨ x ≤ rg.endX))
              ∨ (rg.startY < y ∧ y < rg.endY)
              ∨ (y = rg.endY ∧ x ≤ rg.endX ∧ (rg.startY < y ∨ rg.startX ≤ x)) then
            [PaintOp.strokeLine cellX underlineY (cellX + cellW) underlineY
              (CssColor.named "#4A90E2")]
          else []
        | none => []
      | none => []
    textOp :: (uOps ++ sOps ++ linkOps ++ rangeOps)

/-- Method `renderLine`: clear the row to the theme background, then pass 1 (all
backgrounds) and pass 2 (all glyphs), each skipping missing and spacer cells. -/
def renderLine (m : CellMetrics) (theme : TerminalTheme) (sel : Option SelectionRange)
    (hov : Option HyperlinkRange) (getG : Nat → Nat → String) (cells : List GhosttyCell)
    (row cols : Nat) : List PaintOp :=
  let lineStart := row * cols
  let pass1 := (List.range cols).flatMap fun x =>
    match cells.get? (lineStart + x) with
    | none => []
    | some cell => if cell.width = 0 then [] else renderCellBackground m theme sel cell x row
  let pass2 := (List.range cols).flatMap fun x =>
    match cells.get? (lineStart + x) with
    | none => []
    | some cell => if cell.width = 0 then [] else renderCellText m theme sel hov getG cell x row
  PaintOp.fillRect
      ⟨0, ((row * m.height : Nat) : Rat), ((cols * m.width : Nat) : Rat), ((m.height : Nat) : Rat)⟩
      (CssColor.rgbaCol theme.background) 1
    :: (pass1 ++ pass2)

/-- The per-row repaint test of `render`: full repaint, or any of the three
row-flag bits. -/
def needsRenderRow (flags : List Nat) (forceAll : Bool) (y : Nat) : Bool :=
  forceAll || (flags.getD y 0 &&& (ROW_DIRTY ||| ROW_HAS_SELECTION ||| ROW_HAS_HYPERLINK)) != 0

/-- The `rowsToRender` loop of `render`, processing rows `0 … n-1`: a flagged
row is added together with its in-range vertical neighbors. -/
def rowsToRenderAux (flags : List Nat) (forceAll : Bool) (rows : Nat) : Nat → Finset Nat
  | 0 => ∅
  | n + 1 =>
    let acc := rowsToRenderAux flags forceAll rows n
    if needsRenderRow flags forceAll n then
      let acc := insert n acc
      let acc := if 0 < n then insert (n - 1) acc else acc
      if n < rows - 1 then insert (n + 1) acc else acc
    else acc

/-- The complete `rowsToRender` set built by `render`. -/
def rowsToRender (flags : List Nat) (forceAll : Bool) (rows : Nat) : Finset Nat :=
  rowsToRenderAux flags forceAll rows rows

/-- Method `renderCursor`: block, underline or bar geometry in the theme cursor
color (`Math.floor(h * 0.15)` embedded as exact floor division). -/
def renderCursor (m : CellMetrics) (theme : TerminalTheme) (x y : Nat)
    (style : CursorStyle) : List PaintOp :=
  let cx : Rat := ((x * m.width : Nat) : Rat)
  let cy : Rat := ((y * m.height : Nat) : Rat)
  match style with
  | .block =>
    [PaintOp.fillRect ⟨cx, cy, ((m.width : Nat) : Rat), ((m.height : Nat) : Rat)⟩
      (CssColor.rgbaCol theme.cursor) 1]
  | .underline =>
    let uh : Nat := max 2 (3 * m.height / 20)
    [PaintOp.fillRect ⟨cx, cy + ((m.height : Nat) : Rat) - (uh : Rat), ((m.width : Nat) : Rat),
      (uh : Rat)⟩ (CssColor.rgbaCol theme.cursor) 1]
  | .bar =>
    let bw : Nat := max 2 (3 * m.width / 20)
    [PaintOp.fillRect ⟨cx, cy, (bw : Rat), ((m.height : Nat) : Rat)⟩
      (CssColor.rgbaCol theme.cursor) 1]

/-- Method `renderScrollbar`: always clear the track area first, then early-return
when fully transparent or without scrollback, else draw track and thumb. -/
def renderScrollbar (viewportY scrollbackLength visibleRows : Nat) (opacity : Rat)
    (theme : TerminalTheme) (canvasW canvasH pxScale : Rat) : List PaintOp :=
  let canvasHeight := canvasH / pxScale
  let canvasWidth := canvasW / pxScale
  let scrollbarWidth : Rat := 8
  let scrollbarX := canvasWidth - scrollbarWidth - 4
  let pad : Rat := 4
  let trackH := canvasHeight - pad * 2
  let clearOp :=
    PaintOp.fillRect ⟨scrollbarX - 2, 0, scrollbarWidth + 6, canvasHeight⟩
      (CssColor.rgbaCol theme.background) 1
  if opacity ≤ 0 ∨ scrollbackLength = 0 then [clearOp]
  else
    let totalLines : Rat := ((scrollbackLength + visibleRows : Nat) : Rat)
    let thumbH := max 20 (((visibleRows : Rat) / totalLines) * trackH)
    let scrollPos := (viewportY : Rat) / (scrollbackLength : Rat)
    let thumbY := pad + (trackH - thumbH) * (1 - scrollPos)
    let trackOp :=
      PaintOp.fillRect ⟨scrollbarX, pad, scrollbarWidth, trackH⟩
        (CssColor.rgbaCol ⟨128, 128, 128, 1 / 10 * opacity⟩) 1
    let baseOpacity : Rat := if 0 < viewportY then 1 / 2 else 3 / 10
    let thumbOp :=
      PaintOp.fillRect ⟨scrollbarX, thumbY, scrollbarWidth, thumbH⟩
        (CssColor.rgbaCol ⟨128, 128, 128, baseOpacity * opacity⟩) 1
    [clearOp, trackOp, thumbOp]

/-- The scrollbar portion of `render`: `renderScrollbar` is invoked only
behind the `opacity > 0 && scrollbackLength > 0` guard. -/
def scrollbarOpsInRender (viewportY scrollbackLength visibleRows : Nat) (opacity : Rat)
    (theme : TerminalTheme) (canvasW canvasH pxScale : Rat) : List PaintOp :=
  if 0 < opacity ∧ 0 < scrollbackLength then
    renderScrollbar viewportY scrollbackLength visibleRows opacity theme canvasW canvasH pxScale
  else []

/-- The drawing performed by one `render(input)` call: repainted rows, then
the cursor when visible, then the guarded scrollbar. -/
def renderOps (m : CellMetrics) (canvasW canvasH pxScale : Rat) (input : RenderInput) :
    List PaintOp :=
  let forceAll := input.dirtyState == DirtyState.FULL
  let rowsSet := rowsToRender input.rowFlags forceAll input.rows
  let rowOps := (List.range input.rows).flatMap fun y =>
    if y ∈ rowsSet then
      renderLine m input.theme input.selectionRange input.hoveredLink input.getGraphemeString
        input.viewportCells y input.cols
    else []
  let cursorOps :=
    if input.cursorVisible then
      renderCursor m input.theme input.cursorX input.cursorY input.cursorStyle
    else []
  let sbOps :=
    scrollbarOpsInRender input.viewportY input.scrollbackLength input.rows
      input.scrollbarOpacity input.theme canvasW canvasH pxScale
  rowOps ++ cursorOps ++ sbOps

/-! ## Renderer attachment and public entry points -/

/-- A drawing surface (`HTMLCanvasElement`): backing-store size in device
pixels and whether `getContext("2d")` succeeds on it. -/
structure Canvas where
  width : Rat
  height : Rat
  hasContext2D : Bool
deriving DecidableEq

/-- The `CanvasRenderer` fields the entry points read. -/
structure RendererState where
  canvas : Option Canvas
  hasCtx : Bool
  metrics : CellMetrics
  pxScale : Rat
  theme : TerminalTheme

/-- The error message of `requireContext`/`requireCanvas`. -/
def notAttachedMsg : String := "CanvasRenderer is not attached to a canvas"

/-- Method `requireContext`: throws unless both context and canvas are present. -/
def requireContext (s : RendererState) : Except String Unit :=
  match s.hasCtx, s.canvas with
  | true, some _ => .ok ()
  | _, _ => .error notAttachedMsg

/-- Method `requireCanvas`: throws unless a canvas is present. -/
def requireCanvas (s : RendererState) : Except String Canvas :=
  match s.canvas with
  | some c => .ok c
  | none => .error notAttachedMsg

/-- Method `attach(canvas)`: store the canvas, then acquire the 2D context (the
canvas is stored even when context acquisition fails, as in the source). -/
def attach (s : RendererState) (c : Canvas) : RendererState × Except String Unit :=
  let s1 := { s with canvas := some c }
  if c.hasContext2D then ({ s1 with hasCtx := true }, .ok ())
  else (s1, .error "Failed to get 2D rendering context")

/-- A renderer constructed without a canvas: nothing attached yet. -/
def initialRenderer (m : CellMetrics) (pxScale : Rat) (theme : TerminalTheme) : RendererState :=
  { canvas := none, hasCtx := false, metrics := m, pxScale := pxScale, theme := theme }

/-- Method `resize(cols, rows)`: requires attachment, then repaints the background
over the new CSS-pixel extent. -/
def resize (s : RendererState) (cols rows : Nat) : Except String (List PaintOp) := do
  let _ ← requireCanvas s
  let _ ← requireContext s
  pure [PaintOp.fillRect
    ⟨0, 0, ((cols * s.metrics.width : Nat) : Rat), ((rows * s.metrics.height : Nat) : Rat)⟩
    (CssColor.rgbaCol s.theme.background) 1]

/-- Method `render(input)`: requires attachment, then performs the frame's drawing. -/
def render (s : RendererState) (input : RenderInput) : Except String (List PaintOp) := do
  let _ ← requireContext s
  let c ← requireCanvas s
  pure (renderOps s.metrics c.width c.height s.pxScale input)

/-- Method `clear()`: requires attachment, then paints theme background over the
whole canvas. -/
def clear (s : RendererState) : Except String (List PaintOp) := do
  let _ ← requireContext s
  let c ← requireCanvas s
  pure [PaintOp.fillRect ⟨0, 0, c.width, c.height⟩ (CssColor.rgbaCol s.theme.background) 1]

/-- Method `getCanvas()`: requires attachment. -/
def getCanvas (s : RendererState) : Except String Canvas :=
  requireCanvas s

/-! ## Helper lemmas: evaluating the default colors -/

theorem parseColor_default_foreground : parseColor DEFAULT_foreground = some ⟨212, 212, 212, 1⟩ := by
  with_unfolding_all rfl

theorem parseColor_default_background : parseColor DEFAULT_background = some ⟨30, 30, 30, 1⟩ := by
  with_unfolding_all rfl

theorem parseColor_default_cursor : parseColor DEFAULT_cursor = some ⟨255, 255, 255, 1⟩ := by
  with_unfolding_all rfl

/-- Evaluation of `resolveColor` in terms of its fallback's parse. -/
theorem resolveColor_spec (v : Option String) (fallback : String) (dv : RGBA)
    (hf : parseColor fallback = some dv) :
    resolveColor v fallback = (v.bind parseColor).getD dv := by
  cases v with
  | none => simp [resolveColor, hf]
  | some s => cases h : parseColor s <;> simp [resolveColor, h, hf]

/-- Merging the default string into an absent slot does not change
`resolveColor`'s result. -/
theorem resolveColor_orElse (x : Option String) (f : String) :
    resolveColor (x <|> some f) f = resolveColor x f := by
  cases x with
  | none => cases h : parseColor f <;> simp [resolveColor, h]
  | some s => rfl

/-! ## C3: selection containment geometry -/

/-- C3: a cell (x, y) is painted as selected iff the selection range contains
it under row-span geometry: with no selection nothing is selected; on a
single-row selection exactly the columns startCol ≤ x ≤ endCol of that row;
on a multi-row selection the first row from startCol on, interior rows
entirely, and the last row up to endCol. -/
theorem c3_isInSelection_geometry (s : SelectionRange) (x y : Int) :
    isInSelection none x y = false
  ∧ (s.startRow = s.endRow →
      (isInSelection (some s) x y = true ↔ y = s.startRow ∧ s.startCol ≤ x ∧ x ≤ s.endCol))
  ∧ (s.startRow < s.endRow →
      (isInSelection (some s) x y = true ↔
        (y = s.startRow ∧ s.startCol ≤ x)
        ∨ (s.startRow < y ∧ y < s.endRow)
        ∨ (y = s.endRow ∧ x ≤ s.endCol))) := by
  refine ⟨rfl, ?_, ?_⟩
  · intro h
    simp only [isInSelection]
    rw [if_pos h]
    simp
  · intro h
    simp only [isInSelection]
    rw [if_neg (by omega)]
    split_ifs with hy1 hy2 hy3 <;> simp <;> omega

/-- Witness for C3 at the spec's concrete examples: the single-row selection
(2,1)–(5,1) contains (3,1), and the multi-row selection (5,0)–(2,2) contains
all of row 1. -/
theorem c3_witness :
    isInSelection (some ⟨2, 1, 5, 1⟩) 3 1 = true
  ∧ isInSelection (some ⟨5, 0, 2, 2⟩) 0 1 = true := by
  constructor
  · exact ((c3_isInSelection_geometry ⟨2, 1, 5, 1⟩ 3 1).2.1 rfl).mpr (by norm_num)
  · exact ((c3_isInSelection_geometry ⟨5, 0, 2, 2⟩ 0 1).2.2 (by norm_num)).mpr (by norm_num)

/-! ## C4: totality of theme resolution -/

/-- C4 counterexample: the claim says every unparseable color slot takes the
built-in default, but an unparseable `selectionForeground` override ("zzz"
parses as neither hex nor rgb()) resolves to `null`, not to the default
RGBA(30,30,30,1) of that slot. -/
theorem c4_counterexample :
    parseColor "zzz" = none
  ∧ (resolveTheme (some { selectionForeground := some "zzz" })).selectionForeground = none
  ∧ ¬ (resolveTheme (some { selectionForeground := some "zzz" })).selectionForeground
      = some ⟨30, 30, 30, 1⟩ := by
  have h2 : (resolveTheme (some { selectionForeground := some "zzz" })).selectionForeground
      = none := by with_unfolding_all rfl
  refine ⟨by with_unfolding_all rfl, h2, ?_⟩
  rw [h2]
  simp

/-- C4 (amended): theme resolution is total; every non-nullable color slot
takes the parse of its override when that parses and the built-in default
otherwise (also when the slot is missing); the nullable `selectionForeground`
takes the default only when missing, while an unparseable, empty or literal
"undefined" override resolves to null; the selection opacity is 0.4 when
absent or non-finite and otherwise clamped to [0,1], so −1, 2 and NaN
resolve to 0, 1 and 0.4. -/
theorem c4_resolveTheme_total (t : Option ITheme) :
    (resolveTheme t).foreground
      = ((t.bind ITheme.foreground).bind parseColor).getD ⟨212, 212, 212, 1⟩
  ∧ (resolveTheme t).background
      = ((t.bind ITheme.background).bind parseColor).getD ⟨30, 30, 30, 1⟩
  ∧ (resolveTheme t).cursor
      = ((t.bind ITheme.cursor).bind parseColor).getD ⟨255, 255, 255, 1⟩
  ∧ (resolveTheme t).cursorAccent
      = ((t.bind ITheme.cursorAccent).bind parseColor).getD ⟨30, 30, 30, 1⟩
  ∧ (resolveTheme t).selectionBackground
      = ((t.bind ITheme.selectionBackground).bind parseColor).getD ⟨212, 212, 212, 1⟩
  ∧ (resolveTheme t).selectionForeground
      = (match t.bind ITheme.selectionForeground with
        | none => some ⟨30, 30, 30, 1⟩
        | some s => if s = "" ∨ s = "undefined" then none else parseColor s)
  ∧ (resolveTheme t).selectionOpacity
      = (match t.bind ITheme.selectionOpacity with
        | some (JSNum.num q) => if q < 0 then 0 else if 1 < q then 1 else q
        | _ => 2 / 5)
  ∧ (resolveTheme (some { selectionOpacity := some (JSNum.num (-1)) })).selectionOpacity = 0
  ∧ (resolveTheme (some { selectionOpacity := some (JSNum.num 2) })).selectionOpacity = 1
  ∧ (resolveTheme (some { selectionOpacity := some JSNum.nan })).selectionOpacity = 2 / 5 := by
  have hsf : ∀ u : Option ITheme, (resolveTheme u).selectionForeground
      = (match u.bind ITheme.selectionForeground with
        | none => some ⟨30, 30, 30, 1⟩
        | some s => if s = "" ∨ s = "undefined" then none else parseColor s) := by
    intro u
    cases u with
    | none => with_unfolding_all rfl
    | some th =>
      cases h : th.selectionForeground with
      | none =>
        have e : (resolveTheme (some th)).selectionForeground
            = resolveOptionalColor (th.selectionForeground
                <|> (th.selectionForeground <|> some DEFAULT_selectionForeground)) := rfl
        rw [e, h]
        simp only [Option.bind, h]
        with_unfolding_all rfl
      | some sv =>
        have e : (resolveTheme (some th)).selectionForeground
            = resolveOptionalColor (th.selectionForeground
                <|> (th.selectionForeground <|> some DEFAULT_selectionForeground)) := rfl
        rw [e, h]
        simp only [Option.bind, h]
        rfl
  have hop : ∀ u : Option ITheme, (resolveTheme u).selectionOpacity
      = (match u.bind ITheme.selectionOpacity with
        | some (JSNum.num q) => if q < 0 then 0 else if 1 < q then 1 else q
        | _ => 2 / 5) := by
    intro u
    cases u with
    | none => rfl
    | some th =>
      have e : (resolveTheme (some th)).selectionOpacity
          = normalizeOpacity th.selectionOpacity := rfl
      rw [e]
      simp only [Option.bind]
      cases h : th.selectionOpacity with
      | none => rfl
      | some j => cases j <;> rfl
  have hslot : ∀ (u : Option ITheme) (proj : ITheme → Option String) (fb : String) (dv : RGBA),
      parseColor fb = some dv →
      resolveColor ((u.bind proj) <|> some fb) fb = ((u.bind proj).bind parseColor).getD dv := by
    intro u proj fb dv hf
    rw [resolveColor_orElse, resolveColor_spec _ _ _ hf]
  refine ⟨?_, ?_, ?_, ?_, ?_, hsf t, hop t, ?_, ?_, ?_⟩
  · cases t with
    | none => with_unfolding_all rfl
    | some th =>
      have e : (resolveTheme (some th)).foreground
          = resolveColor (th.foreground <|> some DEFAULT_foreground) DEFAULT_foreground := rfl
      rw [e]
      exact hslot (some th) ITheme.foreground _ _ parseColor_default_foreground
  · cases t with
    | none => with_unfolding_all rfl
    | some th =>
      have e : (resolveTheme (some th)).background
          = resolveColor (th.background <|> some DEFAULT_background) DEFAULT_background := rfl
      rw [e]
      exact hslot (some th) ITheme.background _ _ parseColor_default_background
  · cases t with
    | none => with_unfolding_all rfl
    | some th =>
      have e : (resolveTheme (some th)).cursor
          = resolveColor (th.cursor <|> some DEFAULT_cursor) DEFAULT_cursor := rfl
      rw [e]
      exact hslot (some th) ITheme.cursor _ _ parseColor_default_cursor
  · cases t with
    | none => with_unfolding_all rfl
    | some th =>
      have e : (resolveTheme (some th)).cursorAccent
          = resolveColor (th.cursorAccent <|> some DEFAULT_cursorAccent) DEFAULT_cursorAccent := rfl
      rw [e]
      exact hslot (some th) ITheme.cursorAccent _ _ parseColor_default_background
  · cases t with
    | none => with_unfolding_all rfl
    | some th =>
      have e : (resolveTheme (some th)).selectionBackground
          = resolveColor (th.selectionBackground <|> some DEFAULT_selectionBackground)
              DEFAULT_selectionBackground := rfl
      rw [e]
      exact hslot (some th) ITheme.selectionBackground _ _ parseColor_default_foreground
  · rw [hop (some { selectionOpacity := some (JSNum.num (-1)) })]
    norm_num
  · rw [hop (some { selectionOpacity := some (JSNum.num 2) })]
    norm_num
  · rw [hop (some { selectionOpacity := some JSNum.nan })]
    rfl

/-! ## C9: hex shorthand expansion and rgba parsing -/

/-- A list all of whose elements fail the predicate is untouched by
`dropWhile`. -/
theorem dropWhile_eq_self_of (p : Char → Bool) (l : List Char)
    (h : ∀ c ∈ l, p c = false) : l.dropWhile p = l := by
  cases l with
  | nil => rfl
  | cons a t =>
    rw [List.dropWhile_cons, h a (List.mem_cons_self a t)]
    simp

/-- Function `trim` is the identity on strings without outer whitespace. -/
theorem trimList_eq_self (l : List Char) (h : ∀ c ∈ l, isJsWs c = false) :
    trimList l = l := by
  unfold trimList
  rw [dropWhile_eq_self_of _ _ h, dropWhile_eq_self_of _ _ ?_, List.reverse_reverse]
  intro c hc
  exact h c (List.mem_reverse.mp hc)

/-- A hexadecimal digit is not whitespace. -/
theorem not_ws_of_hex (c : Char) (h : (hexVal? c).isSome = true) : isJsWs c = false := by
  simp only [hexVal?] at h
  unfold isJsWs
  simp only [Bool.or_eq_false_iff, decide_eq_false_iff_not]
  split_ifs at h with h1 h2 h3
  · omega
  · omega
  · omega
  · simp at h

/-- C9: every 3-digit (resp. 4-digit) hexadecimal color form parses to the
same RGBA as its digit-doubled 6-digit (resp. 8-digit) expansion — in
particular "#fff" equals "#ffffff" — and "rgba(10,20,30,0.5)" parses to
exactly r=10, g=20, b=30, a=0.5. -/
theorem c9_hex_shorthand (c1 c2 c3 c4 : Char)
    (h1 : (hexVal? c1).isSome = true) (h2 : (hexVal? c2).isSome = true)
    (h3 : (hexVal? c3).isSome = true) (h4 : (hexVal? c4).isSome = true) :
    parseColor (String.mk ['#', c1, c2, c3])
      = parseColor (String.mk ['#', c1, c1, c2, c2, c3, c3])
  ∧ parseColor (String.mk ['#', c1, c2, c3, c4])
      = parseColor (String.mk ['#', c1, c1, c2, c2, c3, c3, c4, c4])
  ∧ parseColor "rgba(10,20,30,0.5)" = some ⟨10, 20, 30, 1 / 2⟩ := by
  have hw1 := not_ws_of_hex c1 h1
  have hw2 := not_ws_of_hex c2 h2
  have hw3 := not_ws_of_hex c3 h3
  have hw4 := not_ws_of_hex c4 h4
  refine ⟨?_, ?_, by with_unfolding_all rfl⟩
  · show parseHexColorL ['#', c1, c2, c3] = parseHexColorL ['#', c1, c1, c2, c2, c3, c3]
    have t3 : trimList (List.drop 1 ['#', c1, c2, c3]) = [c1, c2, c3] := by
      refine trimList_eq_self _ ?_
      intro c hc
      fin_cases hc <;> assumption
    have t6 : trimList (List.drop 1 ['#', c1, c1, c2, c2, c3, c3])
        = [c1, c1, c2, c2, c3, c3] := by
      refine trimList_eq_self _ ?_
      intro c hc
      fin_cases hc <;> assumption
    unfold parseHexColorL
    rw [t3, t6]
  · show parseHexColorL ['#', c1, c2, c3, c4] = parseHexColorL ['#', c1, c1, c2, c2, c3, c3, c4, c4]
    have t4 : trimList (List.drop 1 ['#', c1, c2, c3, c4]) = [c1, c2, c3, c4] := by
      refine trimList_eq_self _ ?_
      intro c hc
      fin_cases hc <;> assumption
    have t8 : trimList (List.drop 1 ['#', c1, c1, c2, c2, c3, c3, c4, c4])
        = [c1, c1, c2, c2, c3, c3, c4, c4] := by
      refine trimList_eq_self _ ?_
      intro c hc
      fin_cases hc <;> assumption
    unfold parseHexColorL
    rw [t4, t8]

/-- Witness for C9 at concrete digits: "#fff" versus "#ffffff" and
"#abc4" versus "#aabbcc44". -/
theorem c9_witness :
    (hexVal? 'f').isSome = true
  ∧ parseColor (String.mk ['#', 'f', 'f', 'f'])
      = parseColor (String.mk ['#', 'f', 'f', 'f', 'f', 'f', 'f']) := by
  refine ⟨by decide, ?_⟩
  exact (c9_hex_shorthand 'f' 'f' 'f' 'f' (by decide) (by decide) (by decide) (by decide)).1

/-! ## C10: default selection foreground -/

/-- C10: when the override omits `selectionForeground` — including
`resolveTheme` applied to no argument — the resolved theme's
`selectionForeground` is not null but the parse of "#1e1e1e",
RGBA(30,30,30,1). -/
theorem c10_selectionForeground_default :
    (resolveTheme none).selectionForeground = some ⟨30, 30, 30, 1⟩
  ∧ ∀ th : ITheme, th.selectionForeground = none →
      (resolveTheme (some th)).selectionForeground = some ⟨30, 30, 30, 1⟩ := by
  constructor
  · with_unfolding_all rfl
  · intro th h
    have e : (resolveTheme (some th)).selectionForeground
        = resolveOptionalColor (th.selectionForeground
            <|> (th.selectionForeground <|> some DEFAULT_selectionForeground)) := rfl
    rw [e, h]
    with_unfolding_all rfl

/-- Witness for C10: the empty override. -/
theorem c10_witness :
    (resolveTheme (some ({} : ITheme))).selectionForeground = some ⟨30, 30, 30, 1⟩ :=
  c10_selectionForeground_default.2 {} rfl

/-! ## C1: the repainted-row set -/

/-- Membership in the partially built `rowsToRender` set after the loop has
processed rows `0 … n-1`. -/
theorem mem_rowsToRenderAux (flags : List Nat) (forceAll : Bool) (rows n y : Nat) :
    y ∈ rowsToRenderAux flags forceAll rows n ↔
      ∃ z, z < n ∧ needsRenderRow flags forceAll z = true ∧
        (y = z ∨ (0 < z ∧ y = z - 1) ∨ (z < rows - 1 ∧ y = z + 1)) := by
  induction n with
  | zero => simp [rowsToRenderAux]
  | succ n ih =>
    simp only [rowsToRenderAux]
    split_ifs with hn h1 h0 h0'
    · simp only [Finset.mem_insert, ih]
      constructor
      · rintro (h | h | h | ⟨z, hz, hne, hd⟩)
        · exact ⟨n, by omega, hn, by omega⟩
        · exact ⟨n, by omega, hn, by omega⟩
        · exact ⟨n, by omega, hn, by omega⟩
        · exact ⟨z, by omega, hne, hd⟩
      · rintro ⟨z, hz, hne, hd⟩
        by_cases hzn : z = n
        · subst hzn
          rcases hd with h | ⟨hz0, h⟩ | ⟨hzr, h⟩
          · exact Or.inr (Or.inr (Or.inl (by omega)))
          · exact Or.inr (Or.inl (by omega))
          · exact Or.inl (by omega)
        · exact Or.inr (Or.inr (Or.inr ⟨z, by omega, hne, hd⟩))
    · simp only [Finset.mem_insert, ih]
      constructor
      · rintro (h | h | ⟨z, hz, hne, hd⟩)
        · exact ⟨n, by omega, hn, by omega⟩
        · exact ⟨n, by omega, hn, by omega⟩
        · exact ⟨z, by omega, hne, hd⟩
      · rintro ⟨z, hz, hne, hd⟩
        by_cases hzn : z = n
        · subst hzn
          rcases hd with h | ⟨hz0, h⟩ | ⟨hzr, h⟩
          · exact Or.inr (Or.inl (by omega))
          · omega
          · exact Or.inl (by omega)
        · exact Or.inr (Or.inr ⟨z, by omega, hne, hd⟩)
    · simp only [Finset.mem_insert, ih]
      constructor
      · rintro (h | h | ⟨z, hz, hne, hd⟩)
        · exact ⟨n, by omega, hn, by omega⟩
        · exact ⟨n, by omega, hn, by omega⟩
        · exact ⟨z, by omega, hne, hd⟩
      · rintro ⟨z, hz, hne, hd⟩
        by_cases hzn : z = n
        · subst hzn
          rcases hd with h | ⟨hz0, h⟩ | ⟨hzr, h⟩
          · exact Or.inr (Or.inl (by omega))
          · exact Or.inl (by omega)
          · omega
        · exact Or.inr (Or.inr ⟨z, by omega, hne, hd⟩)
    · simp only [Finset.mem_insert, ih]
      constructor
      · rintro (h | ⟨z, hz, hne, hd⟩)
        · exact ⟨n, by omega, hn, by omega⟩
        · exact ⟨z, by omega, hne, hd⟩
      · rintro ⟨z, hz, hne, hd⟩
        by_cases hzn : z = n
        · subst hzn
          rcases hd with h | ⟨hz0, h⟩ | ⟨hzr, h⟩
          · exact Or.inl (by omega)
          · omega
          · omega
        · exact Or.inr ⟨z, by omega, hne, hd⟩
    · rw [ih]
      constructor
      · rintro ⟨z, hz, hne, hd⟩
        exact ⟨z, by omega, hne, hd⟩
      · rintro ⟨z, hz, hne, hd⟩
        by_cases hzn : z = n
        · subst hzn
          exact absurd hne hn
        · exact ⟨z, by omega, hne, hd⟩

/-- The row flags of a frame whose only mark is DIRTY on row `k`. -/
theorem getD_singleDirty (rows k z : Nat) :
    ((List.replicate rows 0).set k ROW_DIRTY).getD z 0
      = if z = k ∧ k < rows then ROW_DIRTY else 0 := by
  rw [List.getD_eq_getElem?_getD]
  rcases Nat.lt_or_ge z rows with hz | hz
  · by_cases hzk : z = k
    · subst hzk
      rw [List.getElem?_set_self (by simpa using hz)]
      simp [hz]
    · rw [List.getElem?_set_ne (by omega)]
      rw [List.getElem?_replicate, if_pos hz]
      simp [hzk]
  · rw [List.getElem?_eq_none (by simpa using hz)]
    have hnot : ¬ (z = k ∧ k < rows) := by omega
    rw [if_neg hnot]
    rfl

/-- C1: the set of repainted rows of a `render` call equals all rows in
[0, rows) when the full-repaint indicator is set, and otherwise exactly the
rows carrying DIRTY, HAS_SELECTION or HAS_HYPERLINK together with their
immediate vertical neighbors, intersected with [0, rows); in particular a
frame whose only mark is DIRTY on row k repaints exactly the rows k-1, k
and k+1 clipped to [0, rows). -/
theorem c1_rowsToRender_spec :
    (∀ (flags : List Nat) (forceAll : Bool) (rows y : Nat),
      y ∈ rowsToRender flags forceAll rows ↔
        y < rows ∧ (forceAll = true ∨ ∃ z, z < rows
          ∧ (flags.getD z 0 &&& (ROW_DIRTY ||| ROW_HAS_SELECTION ||| ROW_HAS_HYPERLINK)) ≠ 0
          ∧ (y = z ∨ y + 1 = z ∨ y = z + 1)))
  ∧ (∀ (rows k y : Nat),
      y ∈ rowsToRender ((List.replicate rows 0).set k ROW_DIRTY) false rows ↔
        y < rows ∧ k < rows ∧ (y = k ∨ y + 1 = k ∨ y = k + 1)) := by
  have main : ∀ (flags : List Nat) (forceAll : Bool) (rows y : Nat),
      y ∈ rowsToRender flags forceAll rows ↔
        y < rows ∧ (forceAll = true ∨ ∃ z, z < rows
          ∧ (flags.getD z 0 &&& (ROW_DIRTY ||| ROW_HAS_SELECTION ||| ROW_HAS_HYPERLINK)) ≠ 0
          ∧ (y = z ∨ y + 1 = z ∨ y = z + 1)) := by
    intro flags forceAll rows y
    rw [rowsToRender, mem_rowsToRenderAux]
    constructor
    · rintro ⟨z, hz, hne, hd⟩
      simp only [needsRenderRow, Bool.or_eq_true, bne_iff_ne, ne_eq] at hne
      constructor
      · omega
      · rcases hne with hf | hflag
        · exact Or.inl hf
        · exact Or.inr ⟨z, hz, hflag, by omega⟩
    · rintro ⟨hy, hf | ⟨z, hz, hflag, hd⟩⟩
      · refine ⟨y, hy, ?_, Or.inl rfl⟩
        simp [needsRenderRow, hf]
      · refine ⟨z, hz, ?_, by omega⟩
        simp only [needsRenderRow, Bool.or_eq_true, bne_iff_ne, ne_eq]
        exact Or.inr hflag
  refine ⟨main, ?_⟩
  intro rows k y
  rw [main]
  constructor
  · rintro ⟨hy, hf | ⟨z, hz, hflag, hd⟩⟩
    · simp at hf
    · rw [getD_singleDirty] at hflag
      by_cases hcase : z = k ∧ k < rows
      · exact ⟨hy, hcase.2, by omega⟩
      · rw [if_neg hcase] at hflag
        simp [ROW_DIRTY, ROW_HAS_SELECTION, ROW_HAS_HYPERLINK] at hflag
  · rintro ⟨hy, hk, hd⟩
    refine ⟨hy, Or.inr ⟨k, hk, ?_, by omega⟩⟩
    rw [getD_singleDirty, if_pos ⟨rfl, hk⟩]
    simp [ROW_DIRTY, ROW_HAS_SELECTION, ROW_HAS_HYPERLINK]

/-! ## C6: pass-1 background fills -/

/-- Pass 2 draws only glyphs and decoration strokes, never a filled
rectangle. -/
theorem eq_of_mem_ite_single {α : Type} {p : Prop} [Decidable p] {a b : α}
    (h : a ∈ (if p then [b] else ([] : List α))) : a = b := by
  by_cases hp : p
  · rw [if_pos hp] at h
    simpa using h
  · rw [if_neg hp] at h
    simp at h

theorem renderCellText_no_fillRect (m : CellMetrics) (theme : TerminalTheme)
    (sel : Option SelectionRange) (hov : Option HyperlinkRange) (getG : Nat → Nat → String)
    (cell : GhosttyCell) (x y : Nat) (r : Rect) (c : CssColor) (a : Rat) :
    PaintOp.fillRect r c a ∉ renderCellText m theme sel hov getG cell x y := by
  intro hmem
  unfold renderCellText at hmem
  by_cases hv : cell.flags.invisible
  · rw [if_pos hv] at hmem
    exact absurd hmem (List.not_mem_nil _)
  · rw [if_neg hv] at hmem
    rcases hov with _ | ⟨hid, _ | rg⟩
    · dsimp only at hmem
      rcases List.mem_cons.mp hmem with heq | hmem
      · exact PaintOp.noConfusion heq
      rcases List.mem_append.mp hmem with hm1 | hm4
      · rcases List.mem_append.mp hm1 with hm2 | hm3
        · rcases List.mem_append.mp hm2 with hu | hs
          · exact PaintOp.noConfusion (eq_of_mem_ite_single hu)
          · exact PaintOp.noConfusion (eq_of_mem_ite_single hs)
        · exact PaintOp.noConfusion (eq_of_mem_ite_single hm3)
      · exact absurd hm4 (List.not_mem_nil _)
    · dsimp only at hmem
      rcases List.mem_cons.mp hmem with heq | hmem
      · exact PaintOp.noConfusion heq
      rcases List.mem_append.mp hmem with hm1 | hm4
      · rcases List.mem_append.mp hm1 with hm2 | hm3
        · rcases List.mem_append.mp hm2 with hu | hs
          · exact PaintOp.noConfusion (eq_of_mem_ite_single hu)
          · exact PaintOp.noConfusion (eq_of_mem_ite_single hs)
        · exact PaintOp.noConfusion (eq_of_mem_ite_single hm3)
      · exact absurd hm4 (List.not_mem_nil _)
    · dsimp only at hmem
      rcases List.mem_cons.mp hmem with heq | hmem
      · exact PaintOp.noConfusion heq
      rcases List.mem_append.mp hmem with hm1 | hm4
      · rcases List.mem_append.mp hm1 with hm2 | hm3
        · rcases List.mem_append.mp hm2 with hu | hs
          · exact PaintOp.noConfusion (eq_of_mem_ite_single hu)
          · exact PaintOp.noConfusion (eq_of_mem_ite_single hs)
        · exact PaintOp.noConfusion (eq_of_mem_ite_single hm3)
      · exact PaintOp.noConfusion (eq_of_mem_ite_single hm4)

/-- C6: in pass 1, a per-cell background rectangle with components
(cr, cg, cb) is emitted for column x exactly when a non-spacer cell sits
there, the components are its foreground when INVERSE is set and its
background otherwise, and they differ from the (0,0,0) sentinel — a
sentinel-colored cell draws no rectangle, so the row's pre-cleared theme
background shows through. -/
theorem c6_background_fill (m : CellMetrics) (theme : TerminalTheme)
    (sel : Option SelectionRange) (hov : Option HyperlinkRange) (getG : Nat → Nat → String)
    (cells : List GhosttyCell) (row cols : Nat) (r : Rect) (cr cg cb : Nat) :
    PaintOp.fillRect r (CssColor.rgbByte cr cg cb) 1
        ∈ renderLine m theme sel hov getG cells row cols
      ↔ ∃ x, x < cols ∧ ∃ cell, cells.get? (row * cols + x) = some cell ∧ cell.width ≠ 0
          ∧ (cr, cg, cb)
              = (if cell.flags.inverse then (cell.fg_r, cell.fg_g, cell.fg_b)
                else (cell.bg_r, cell.bg_g, cell.bg_b))
          ∧ (cr, cg, cb) ≠ ((0, 0, 0) : Nat × Nat × Nat)
          ∧ r = cellRect m x row cell.width := by
  constructor
  · intro hmem
    simp only [renderLine, List.mem_cons, List.mem_append, List.mem_flatMap,
      List.mem_range] at hmem
    rcases hmem with heq | ⟨x, hx, hin⟩ | ⟨x, hx, hin⟩
    · simp at heq
    · rcases hcell : cells.get? (row * cols + x) with _ | cell
      · rw [hcell] at hin
        simp at hin
      · rw [hcell] at hin
        dsimp only at hin
        by_cases hw : cell.width = 0
        · rw [if_pos hw] at hin
          simp at hin
        · rw [if_neg hw] at hin
          simp only [renderCellBackground, List.mem_append] at hin
          rcases hin with hin | hin
          · by_cases hz :
              (if cell.flags.inverse then (cell.fg_r, cell.fg_g, cell.fg_b)
                else (cell.bg_r, cell.bg_g, cell.bg_b)) = ((0, 0, 0) : Nat × Nat × Nat)
            · rw [if_pos hz] at hin
              simp at hin
            · rw [if_neg hz] at hin
              simp only [List.mem_singleton, PaintOp.fillRect.injEq, CssColor.rgbByte.injEq]
                at hin
              obtain ⟨hrect, ⟨h1, h2, h3⟩, _⟩ := hin
              refine ⟨x, hx, cell, hcell, hw, ?_, ?_, hrect⟩
              · rw [h1, h2, h3]
              · rw [h1, h2, h3]
                exact hz
          · split_ifs at hin <;> simp_all
    · rcases hcell : cells.get? (row * cols + x) with _ | cell
      · rw [hcell] at hin
        simp at hin
      · rw [hcell] at hin
        dsimp only at hin
        by_cases hw : cell.width = 0
        · rw [if_pos hw] at hin
          simp at hin
        · rw [if_neg hw] at hin
          exact absurd hin (renderCellText_no_fillRect m theme sel hov getG cell x row r _ 1)
  · rintro ⟨x, hx, cell, hcell, hw, hcomp, hnz, hr⟩
    simp only [renderLine, List.mem_cons, List.mem_append, List.mem_flatMap, List.mem_range]
    refine Or.inr (Or.inl ⟨x, hx, ?_⟩)
    rw [hcell]
    dsimp only
    rw [if_neg hw]
    simp only [renderCellBackground, List.mem_append]
    refine Or.inl ?_
    rw [← hcomp, if_neg hnz]
    simp [hr]

/-! ## Scheduler lemmas (C2, C5) -/

theorem scheduleAll_pending_map {β : Type} (s : SchedulerState β) (cbs : List β) :
    (scheduleAll s cbs).pending.map Prod.snd = s.pending.map Prod.snd ++ cbs := by
  induction cbs generalizing s with
  | nil => simp [scheduleAll]
  | cons cb rest ih =>
    have e : scheduleAll s (cb :: rest) = scheduleAll (schedule s cb).1 rest := rfl
    rw [e, ih]
    simp [schedule]

theorem scheduleAll_rafArmed {β : Type} (s : SchedulerState β) (cbs : List β) :
    (scheduleAll s cbs).rafArmed = (s.rafArmed || !cbs.isEmpty) := by
  induction cbs generalizing s with
  | nil => simp [scheduleAll]
  | cons cb rest ih =>
    have e : scheduleAll s (cb :: rest) = scheduleAll (schedule s cb).1 rest := rfl
    rw [e, ih]
    simp [schedule]

theorem scheduleAll_nextId {β : Type} (s : SchedulerState β) (cbs : List β) :
    (scheduleAll s cbs).nextId = s.nextId + cbs.length := by
  induction cbs generalizing s with
  | nil => simp [scheduleAll]
  | cons cb rest ih =>
    have e : scheduleAll s (cb :: rest) = scheduleAll (schedule s cb).1 rest := rfl
    rw [e, ih]
    simp [schedule]
    omega

theorem scheduleAll_mem {β : Type} (s : SchedulerState β) (cbs : List β) (e : Nat × β)
    (h : e ∈ (scheduleAll s cbs).pending) : e ∈ s.pending ∨ s.nextId ≤ e.1 := by
  induction cbs generalizing s with
  | nil => exact Or.inl h
  | cons cb rest ih =>
    have he : scheduleAll s (cb :: rest) = scheduleAll (schedule s cb).1 rest := rfl
    rw [he] at h
    rcases ih _ h with hmem | hge
    · simp only [schedule, List.mem_append, List.mem_singleton] at hmem
      rcases hmem with hmem | rfl
      · exact Or.inl hmem
      · exact Or.inr (le_refl _)
    · simp only [schedule] at hge
      exact Or.inr (by omega)

theorem runCallbacks_trace {β : Type} (eff : β → List β) (entries : List (Nat × β))
    (s : SchedulerState β) : (runCallbacks eff entries s).2 = entries := by
  induction entries generalizing s with
  | nil => rfl
  | cons e rest ih => simp [runCallbacks, ih]

theorem runCallbacks_pending_map {β : Type} (eff : β → List β) (entries : List (Nat × β))
    (s : SchedulerState β) :
    (runCallbacks eff entries s).1.pending.map Prod.snd
      = s.pending.map Prod.snd ++ entries.flatMap (fun e => eff e.2) := by
  induction entries generalizing s with
  | nil => simp [runCallbacks]
  | cons e rest ih =>
    simp only [runCallbacks]
    rw [ih, scheduleAll_pending_map]
    simp

theorem isEmpty_append_eq {α : Type} (a b : List α) :
    (a ++ b).isEmpty = (a.isEmpty && b.isEmpty) := by
  cases a <;> simp

theorem runCallbacks_rafArmed {β : Type} (eff : β → List β) (entries : List (Nat × β))
    (s : SchedulerState β) :
    (runCallbacks eff entries s).1.rafArmed
      = (s.rafArmed || !(entries.flatMap (fun e => eff e.2)).isEmpty) := by
  induction entries generalizing s with
  | nil => simp [runCallbacks]
  | cons e rest ih =>
    simp only [runCallbacks]
    rw [ih, scheduleAll_rafArmed]
    simp [Bool.or_assoc, isEmpty_append_eq, Bool.not_and]

theorem runCallbacks_nextId {β : Type} (eff : β → List β) (entries : List (Nat × β))
    (s : SchedulerState β) : s.nextId ≤ (runCallbacks eff entries s).1.nextId := by
  induction entries generalizing s with
  | nil => exact le_refl _
  | cons e rest ih =>
    simp only [runCallbacks]
    refine le_trans ?_ (ih (scheduleAll s (eff e.2)))
    rw [scheduleAll_nextId]
    omega

theorem runCallbacks_mem {β : Type} (eff : β → List β) (entries : List (Nat × β))
    (s : SchedulerState β) (e : Nat × β) (h : e ∈ (runCallbacks eff entries s).1.pending) :
    e ∈ s.pending ∨ s.nextId ≤ e.1 := by
  induction entries generalizing s with
  | nil => exact Or.inl h
  | cons en rest ih =>
    simp only [runCallbacks] at h
    rcases ih _ h with hmem | hge
    · rcases scheduleAll_mem _ _ _ hmem with hmem2 | hge2
      · exact Or.inl hmem2
      · exact Or.inr hge2
    · rw [scheduleAll_nextId] at hge
      exact Or.inr (by omega)

/-- The invocation trace of one flush is exactly the pending set it swapped
out (a callback scheduled during the flush is never invoked in it). -/
theorem flush_trace {β : Type} (eff : β → List β) (s : SchedulerState β) :
    (flush eff s).2 = s.pending := by
  unfold flush
  by_cases hp : s.pending.isEmpty
  · simp only [hp, if_true]
    exact (List.isEmpty_iff.mp hp).symm
  · simp only [hp, Bool.false_eq_true, if_false]
    exact runCallbacks_trace _ _ _

/-- After a flush, the pending set holds exactly the callbacks scheduled by
the invoked callbacks, in invocation order. -/
theorem flush_pending_map {β : Type} (eff : β → List β) (s : SchedulerState β) :
    (flush eff s).1.pending.map Prod.snd = s.pending.flatMap (fun e => eff e.2) := by
  unfold flush
  by_cases hp : s.pending.isEmpty
  · simp only [hp, if_true]
    rw [List.isEmpty_iff.mp hp]
    rfl
  · simp only [hp, Bool.false_eq_true, if_false]
    by_cases hq : (runCallbacks eff s.pending
        { pending := [], nextId := s.nextId, rafArmed := false }).1.pending.isEmpty
    · simp only [hq, if_true]
      have := runCallbacks_pending_map eff s.pending
        { pending := ([] : List (Nat × β)), nextId := s.nextId, rafArmed := false }
      simpa using this
    · simp only [hq, Bool.false_eq_true, if_false]
      have := runCallbacks_pending_map eff s.pending
        { pending := ([] : List (Nat × β)), nextId := s.nextId, rafArmed := false }
      simpa using this

/-- After a flush, a new boundary request is armed exactly when the fresh
pending set is non-empty. -/
theorem flush_armed {β : Type} (eff : β → List β) (s : SchedulerState β) :
    (flush eff s).1.rafArmed = !(flush eff s).1.pending.isEmpty := by
  unfold flush
  by_cases hp : s.pending.isEmpty
  · simp only [hp, if_true]
    rfl
  · simp only [hp, Bool.false_eq_true, if_false]
    by_cases hq : (runCallbacks eff s.pending
        { pending := [], nextId := s.nextId, rafArmed := false }).1.pending.isEmpty
    · simp only [hq, if_true]
      rw [runCallbacks_rafArmed]
      have hmap := runCallbacks_pending_map eff s.pending
        { pending := ([] : List (Nat × β)), nextId := s.nextId, rafArmed := false }
      rw [List.isEmpty_iff.mp hq] at hmap
      simp only [List.map_nil, List.nil_append] at hmap
      rw [← hmap]
      rfl
    · simp only [hq, Bool.false_eq_true, if_false]
      simp [hq]

/-- Every entry pending after a flush carries a handle at least as large as
the pre-flush `nextId`: the swapped-in set is fresh. -/
theorem flush_fresh {β : Type} (eff : β → List β) (s : SchedulerState β) :
    ∀ e ∈ (flush eff s).1.pending, s.nextId ≤ e.1 := by
  intro e he
  unfold flush at he
  by_cases hp : s.pending.isEmpty
  · simp only [hp, if_true] at he
    rw [List.isEmpty_iff.mp hp] at he
    exact absurd he (List.not_mem_nil _)
  · simp only [hp, Bool.false_eq_true, if_false] at he
    by_cases hq : (runCallbacks eff s.pending
        { pending := [], nextId := s.nextId, rafArmed := false }).1.pending.isEmpty
    · simp only [hq, if_true] at he
      rcases runCallbacks_mem eff s.pending _ e he with hmem | hge
      · exact absurd hmem (List.not_mem_nil _)
      · exact hge
    · simp only [hq, Bool.false_eq_true, if_false] at he
      rcases runCallbacks_mem eff s.pending _ e he with hmem | hge
      · exact absurd hmem (List.not_mem_nil _)
      · exact hge

/-- The pending set after a batch of external interactions: prior entries
minus those later cancelled, then each scheduled callback under the next
fresh handle unless a later event cancels that handle. -/
theorem runEvents_pending {β : Type} (evs : List (SchedEvent β)) (s : SchedulerState β) :
    (runEvents evs s).pending
      = s.pending.filter (fun e => !hasCancel evs e.1) ++ survivors evs s.nextId := by
  induction evs generalizing s with
  | nil => simp [runEvents, survivors, hasCancel]
  | cons ev rest ih =>
    cases ev with
    | schedule cb =>
      have e : runEvents (SchedEvent.schedule cb :: rest) s = runEvents rest (schedule s cb).1 :=
        rfl
      rw [e, ih]
      simp only [schedule, survivors, List.filter_append]
      have hpred : ∀ u : Nat × β,
          (!hasCancel rest u.1) = (!hasCancel (SchedEvent.schedule cb :: rest) u.1) := by
        intro u
        simp [hasCancel]
      rw [List.filter_congr (fun u _ => hpred u)]
      have hsingle : List.filter (fun e => !hasCancel rest e.1) [(s.nextId, cb)]
          = if hasCancel rest s.nextId then [] else [(s.nextId, cb)] := by
        by_cases hc : hasCancel rest s.nextId
        · simp [List.filter, hc]
        · simp [List.filter, hc]
      rw [hsingle]
      simp [List.append_assoc]
    | cancel id =>
      have e : runEvents (SchedEvent.cancel id :: rest) s = runEvents rest (cancel s id) := rfl
      rw [e, ih]
      simp only [cancel, survivors]
      rw [List.filter_filter]
      congr 1
      refine List.filter_congr ?_
      intro u _
      by_cases hu : u.1 = id
      · simp [hasCancel, hu]
      · simp [hasCancel, hu]
        intro _
        omega

/-- Once armed, the animation-frame request stays armed across further
`schedule` and `cancel` calls. -/
theorem runEvents_armed_mono {β : Type} (evs : List (SchedEvent β)) (s : SchedulerState β)
    (h : s.rafArmed = true) : (runEvents evs s).rafArmed = true := by
  induction evs generalizing s with
  | nil => exact h
  | cons ev rest ih =>
    cases ev with
    | schedule cb => exact ih ((schedule s cb).1) rfl
    | cancel id => exact ih (cancel s id) h

/-- Any batch containing at least one `schedule` leaves the request armed. -/
theorem runEvents_armed {β : Type} (evs : List (SchedEvent β)) (s : SchedulerState β)
    (h : hasSchedule evs = true) : (runEvents evs s).rafArmed = true := by
  induction evs generalizing s with
  | nil => simp [hasSchedule] at h
  | cons ev rest ih =>
    cases ev with
    | schedule cb => exact runEvents_armed_mono rest ((schedule s cb).1) rfl
    | cancel id =>
      refine ih (cancel s id) ?_
      simpa [hasSchedule] using h

/-! ## C2: scheduler coalescing -/

/-- C2: starting idle, any batch of `schedule`/`cancel` calls containing at
least one `schedule` arms exactly one boundary request; its flush invokes
precisely the entries scheduled and not later cancelled, in registration
order (`survivors`), leaves nothing pending, and disarms; and `cancel` with
a handle not in the pending set (unknown or already fired) is a no-op. -/
theorem c2_scheduler_coalescing {β : Type} (evs : List (SchedEvent β))
    (h : hasSchedule evs = true) :
    (runEvents evs (initScheduler β)).rafArmed = true
  ∧ (flush (fun _ => []) (runEvents evs (initScheduler β))).2 = survivors evs 1
  ∧ (flush (fun _ => []) (runEvents evs (initScheduler β))).1.pending = []
  ∧ (flush (fun _ => []) (runEvents evs (initScheduler β))).1.rafArmed = false
  ∧ ∀ (t : SchedulerState β) (id : Nat), (∀ e ∈ t.pending, e.1 ≠ id) → cancel t id = t := by
  have hpend : (flush (fun _ => []) (runEvents evs (initScheduler β))).1.pending = [] := by
    have hmap := flush_pending_map (fun _ => ([] : List β)) (runEvents evs (initScheduler β))
    have hnil : ∀ l : List (Nat × β), l.flatMap (fun _ => ([] : List β)) = [] := by
      intro l
      induction l with
      | nil => rfl
      | cons a t iht => simp [iht]
    rw [hnil] at hmap
    exact List.map_eq_nil_iff.mp hmap
  refine ⟨runEvents_armed evs _ h, ?_, hpend, ?_, ?_⟩
  · rw [flush_trace, runEvents_pending]
    simp [initScheduler]
  · rw [flush_armed, hpend]
    rfl
  · intro t id hno
    have hfilter : t.pending.filter (fun e => e.1 ≠ id) = t.pending := by
      refine List.filter_eq_self.mpr ?_
      intro e he
      simpa using hno e he
    unfold cancel
    rw [hfilter]

/-- Witness for C2: three schedules with the second cancelled flush exactly
the first and third, in order. -/
theorem c2_witness :
    hasSchedule ([.schedule 10, .schedule 20, .cancel 2, .schedule 30] : List (SchedEvent Nat))
      = true
  ∧ (flush (fun _ => []) (runEvents
        ([.schedule 10, .schedule 20, .cancel 2, .schedule 30] : List (SchedEvent Nat))
        (initScheduler Nat))).2
      = [(1, 10), (3, 30)] := by
  refine ⟨rfl, ?_⟩
  rw [(c2_scheduler_coalescing
    ([.schedule 10, .schedule 20, .cancel 2, .schedule 30] : List (SchedEvent Nat)) rfl).2.1]
  rfl

/-! ## C5: flush defers re-entrant schedules -/

/-- C5: a flush invokes exactly the swapped-out entries — a callback
scheduled during the flush is never invoked in the running flush; the
newly scheduled callbacks form the fresh pending set, in order, under fresh
handles; and a new boundary request is armed after the flush exactly when
that fresh set is non-empty. -/
theorem c5_flush_defers {β : Type} (eff : β → List β) (s : SchedulerState β) :
    (flush eff s).2 = s.pending
  ∧ (flush eff s).1.pending.map Prod.snd = s.pending.flatMap (fun e => eff e.2)
  ∧ (flush eff s).1.rafArmed = !(flush eff s).1.pending.isEmpty
  ∧ ∀ e ∈ (flush eff s).1.pending, s.nextId ≤ e.1 :=
  ⟨flush_trace eff s, flush_pending_map eff s, flush_armed eff s, flush_fresh eff s⟩

/-! ## C7: fail-fast before attach -/

/-- Success test for `Except` results. -/
def isOkExcept {α : Type} : Except String α → Bool
  | .ok _ => true
  | .error _ => false

/-- A concrete resolved theme used by the concrete-input theorems. -/
def sampleTheme : TerminalTheme :=
  ⟨⟨212, 212, 212, 1⟩, ⟨30, 30, 30, 1⟩, ⟨255, 255, 255, 1⟩, ⟨30, 30, 30, 1⟩,
    ⟨212, 212, 212, 1⟩, some ⟨30, 30, 30, 1⟩, 2 / 5⟩

/-- Concrete font metrics used by the concrete-input theorems. -/
def sampleMetrics : CellMetrics := ⟨9, 18, 14⟩

/-- A concrete per-frame render input used by the concrete-input theorems. -/
def sampleInput : RenderInput :=
  { cols := 2, rows := 2, viewportCells := [{}, {}, {}, {}], rowFlags := [1, 0],
    dirtyState := DirtyState.NONE, selectionRange := none, hoveredLink := none,
    cursorX := 0, cursorY := 0, cursorVisible := true, cursorStyle := CursorStyle.block,
    getGraphemeString := fun _ _ => "", theme := sampleTheme, viewportY := 0,
    scrollbackLength := 0, scrollbarOpacity := 0 }

/-- C7: on a renderer never attached to a canvas, `resize`, `render`,
`clear` and `getCanvas` all fail with the descriptive "not attached" error
(and so emit no drawing); after a successful `attach` the same calls
succeed. -/
theorem c7_require_attach (m : CellMetrics) (d : Rat) (th : TerminalTheme)
    (cols rows : Nat) (input : RenderInput) (c : Canvas) (hc : c.hasContext2D = true) :
    resize (initialRenderer m d th) cols rows = .error notAttachedMsg
  ∧ render (initialRenderer m d th) input = .error notAttachedMsg
  ∧ clear (initialRenderer m d th) = .error notAttachedMsg
  ∧ getCanvas (initialRenderer m d th) = .error notAttachedMsg
  ∧ isOkExcept (resize (attach (initialRenderer m d th) c).1 cols rows) = true
  ∧ isOkExcept (render (attach (initialRenderer m d th) c).1 input) = true
  ∧ isOkExcept (clear (attach (initialRenderer m d th) c).1) = true
  ∧ isOkExcept (getCanvas (attach (initialRenderer m d th) c).1) = true := by
  have ha : (attach (initialRenderer m d th) c).1
      = { canvas := some c, hasCtx := true, metrics := m, pxScale := d, theme := th } := by
    unfold attach initialRenderer
    rw [if_pos hc]
  refine ⟨rfl, rfl, rfl, rfl, ?_, ?_, ?_, ?_⟩ <;> rw [ha] <;> rfl

/-- Witness for C7 at concrete inputs: `render` before attach errors,
after attach succeeds. -/
theorem c7_witness :
    (⟨800, 600, true⟩ : Canvas).hasContext2D = true
  ∧ render (initialRenderer sampleMetrics 1 sampleTheme) sampleInput = .error notAttachedMsg
  ∧ isOkExcept (render (attach (initialRenderer sampleMetrics 1 sampleTheme)
      ⟨800, 600, true⟩).1 sampleInput) = true := by
  refine ⟨rfl, ?_, ?_⟩
  · exact (c7_require_attach sampleMetrics 1 sampleTheme 2 2 sampleInput
      ⟨800, 600, true⟩ rfl).2.1
  · exact (c7_require_attach sampleMetrics 1 sampleTheme 2 2 sampleInput
      ⟨800, 600, true⟩ rfl).2.2.2.2.2.1

/-! ## C8: the scrollbar track clear is skipped at opacity 0 -/

/-- C8 (code versus claim): at fade opacity 0 with non-empty scrollback,
`render` never calls `renderScrollbar` — no clear of the track area is
emitted, although `renderScrollbar` itself (as its own comment documents)
would clear the track first even then; at positive opacity the clear comes
first, then track and thumb, the thumb with height
max(20, visibleRows/totalLines × trackHeight). -/
theorem c8_scrollbar_clear_skipped :
    scrollbarOpsInRender 3 5 24 0 sampleTheme 800 600 1 = []
  ∧ renderScrollbar 3 5 24 0 sampleTheme 800 600 1
      = [PaintOp.fillRect ⟨786, 0, 14, 600⟩ (CssColor.rgbaCol sampleTheme.background) 1]
  ∧ renderScrollbar 3 5 24 1 sampleTheme 800 600 1
      = [PaintOp.fillRect ⟨786, 0, 14, 600⟩ (CssColor.rgbaCol sampleTheme.background) 1,
        PaintOp.fillRect ⟨788, 4, 8, 592⟩ (CssColor.rgbaCol ⟨128, 128, 128, 1 / 10⟩) 1,
        PaintOp.fillRect ⟨788, 1300 / 29, 8, 14208 / 29⟩
          (CssColor.rgbaCol ⟨128, 128, 128, 1 / 2⟩) 1] := by
  refine ⟨?_, ?_, ?_⟩
  · with_unfolding_all rfl
  · with_unfolding_all rfl
  · with_unfolding_all rfl


end GhosttyWeb
